import Mathlib

/-!
Shallow embedding of the party-game orchestration module
(`src/lib/prompts.ts`, which bundles the prompt pools and the room/round
API).  Persistent-store reads and writes are made explicit: every
operation is a pure function from the rows it queries to the rows it
writes, with randomness (`Math.random`) passed in as explicit choice
data.  JS objects used as string-keyed maps are embedded as association
lists with JS semantics (update-in-place for a present key, append for
an absent one, missing key reads as 0 via `|| 0`).
-/

namespace PartyGame

/-- JS truthiness for strings: only the empty string is falsy. -/
def strTruthy (s : String) : Bool := s != ""

/-! ### Data model (rows of the persistent store) -/

structure Player where
  id : String
  name : String
  avatar : String
  connected : Bool
  selected_categories : List String
deriving Repr, DecidableEq

structure Submission where
  id : String
  player_id : String
  text : String
deriving Repr, DecidableEq

structure Guess where
  player_id : String
  answer_id : String
deriving Repr, DecidableEq

structure Vote where
  player_id : String
  answer_id : String
deriving Repr, DecidableEq

/-- The `results` JSON persisted on a round by `finalizeRound`. -/
structure RoundResults where
  ownerAnswerId : Option String
  correctGuessers : List String
  voteCounts : List (String × Nat)
deriving Repr, DecidableEq

structure Round where
  id : String
  room_id : String
  category : String
  prompt : String
  deadline : Nat
  owner_id : Option String
  reveal_order : Option (List String)
  results : Option RoundResults
deriving Repr, DecidableEq

/-- The two score maps stored in `rooms.leaderboards`. -/
structure Leaderboards where
  chameleon : List (String × Nat)
  crowd : List (String × Nat)
deriving Repr, DecidableEq

structure Room where
  id : String
  host_device_id : String
  status : String
  category_pool : List String
  round_index : Nat
  leaderboards : Option Leaderboards
deriving Repr, DecidableEq

/-! ### JS object as association list -/

/-- `m[k] || 0`: read a key of a JS object used as a counter map. -/
def alGet : List (String × Nat) → String → Nat
  | [], _ => 0
  | kv :: rest, k => if kv.1 == k then kv.2 else alGet rest k

/-- `m[k] = v`: JS assignment updates a present key in place, else appends. -/
def alSet : List (String × Nat) → String → Nat → List (String × Nat)
  | [], k, v => [(k, v)]
  | kv :: rest, k, v => if kv.1 == k then (k, v) :: rest else kv :: alSet rest k v

/-- `m[k] = (m[k] || 0) + n`. -/
def alBump (m : List (String × Nat)) (k : String) (n : Nat) : List (String × Nat) :=
  alSet m k (alGet m k + n)

/-! ### Prompt pools (`getPrompt`) -/

def HEADLINE : List String :=
  ["Breaking: ______ spotted doing cartwheels in Times Square",
   "Scientists confirm: ______ actually improves memory",
   "New law proposes mandatory ______ on Fridays"]

def LAW : List String :=
  ["In Florida, it is illegal to ______ after 10pm",
   "You may not ______ within 50 feet of a mailbox",
   "Town ordinance bans ______ on Sundays"]

def MEME : List String :=
  ["Caption this image: “Cat on a Roomba”",
   "Caption this image: “Grandma with VR headset”",
   "Caption this image: “Dog wearing sunglasses at the beach”"]

/-- The `pools` record literal inside `getPrompt`. -/
def promptPools (category : String) : Option (List String) :=
  if category = "headline_hijack" then some HEADLINE
  else if category = "law_or_nah" then some LAW
  else if category = "meme_mash" then some MEME
  else none

/-- `getPrompt(category)`; `Math.floor(Math.random() * arr.length)` is
modelled by `rand % arr.length`, which ranges over exactly the indices
the source can produce. -/
def getPrompt (category : String) (rand : Nat) : String :=
  let arr := (promptPools category).getD HEADLINE
  arr.getD (rand % arr.length) ""

/-! ### Category intersection -/

def allCategories : List String := ["headline_hijack", "law_or_nah", "meme_mash"]

/-- `computeCategoryIntersection(roomId)`: the query returns the
`selected_categories` of the room's connected players; here the room's
player rows are the argument and the `connected = true` filter is explicit. -/
def computeCategoryIntersection (players : List Player) : List String :=
  let connectedPlayers := players.filter (·.connected)
  if connectedPlayers.length == 0 then []
  else
    let playersWithSelections :=
      connectedPlayers.filter (fun p => !p.selected_categories.isEmpty)
    if playersWithSelections.length == 0 then []
    else
      allCategories.filter (fun category =>
        playersWithSelections.all (fun p => p.selected_categories.contains category))

/-! ### joinRoom -/

/-- `joinRoom(roomId, name, avatar)`.  `room?` is the result of the
point lookup on the room code; `players` are the room's player rows
(the count query filters `connected = true`); `newId` is the identity
the insert generates. -/
def joinRoom (room? : Option Room) (players : List Player)
    (name avatar newId : String) : Except String (String × List Player) :=
  match room? with
  | none => .error "Room not found"
  | some room =>
    if room.status != "lobby" then .error "Room is not accepting new players"
    else
      let count := (players.filter (·.connected)).length
      if count ≥ 8 then .error "Room is full"
      else
        .ok (newId,
             players ++ [{ id := newId, name := name, avatar := avatar,
                           connected := true, selected_categories := [] }])

/-! ### startRound -/

/-- Lower-cased character sequence of a name, the case-insensitive sort
key of `localeCompare(..., {sensitivity:'base'})`. -/
def nameKey (s : String) : List Char := s.data.map Char.toLower

/-- Lexicographic less-or-equal on the lowered character sequences. -/
def charListLe : List Char → List Char → Bool
  | [], _ => true
  | _ :: _, [] => false
  | a :: as, b :: bs =>
    if a < b then true
    else if b < a then false
    else charListLe as bs

/-- `.sort((a,b) => a.name.localeCompare(b.name, undefined, {sensitivity:'base'}))`:
case-insensitive ordering by name, embedded as insertion sort on the
lower-cased name. -/
def insertByName (p : Player) : List Player → List Player
  | [] => [p]
  | q :: rest =>
    if charListLe (nameKey p.name) (nameKey q.name) then p :: q :: rest
    else q :: insertByName p rest

def sortByName (l : List Player) : List Player := l.foldr insertByName []

structure StartOpts where
  category : Option String := none
  promptText : Option String := none
deriving Repr, DecidableEq

/-- Truthiness of `opts?.category` / `opts?.promptText`. -/
def optTruthy : Option String → Bool
  | none => false
  | some s => strTruthy s

/-- `startRound(roomId, opts)`.  `room?` is the room lookup, `players`
the room's player rows (the owner query filters `connected = true`),
`rand` the randomness consumed by `getPrompt`, `newRoundId` the id the
round insert generates and `now` the clock reading in milliseconds. -/
def startRound (room? : Option Room) (players : List Player) (opts : StartOpts)
    (rand : Nat) (newRoundId : String) (now : Nat) :
    Except String (Round × Room) :=
  match room? with
  | none => .error "Room not found"
  | some room =>
    let pool := room.category_pool
    if pool.length == 0 && !(optTruthy opts.category) then
      .error "No categories available"
    else
      let category :=
        if optTruthy opts.category then opts.category.getD "" else pool.getD 0 ""
      let sortedPl := sortByName (players.filter (·.connected))
      let idx := Nat.max 0 room.round_index % Nat.max 1 sortedPl.length
      let ownerId := (sortedPl.get? idx).map (·.id)
      let deadline := now + 60 * 1000
      let promptText :=
        if optTruthy opts.promptText then opts.promptText.getD ""
        else getPrompt category rand
      let round : Round :=
        { id := newRoundId, room_id := room.id, category := category,
          prompt := promptText, deadline := deadline, owner_id := ownerId,
          reveal_order := none, results := none }
      .ok (round, { room with status := "inRound" })

/-! ### revealRound -/

/-- One swap `[items[i], items[j]] = [items[j], items[i]]`. -/
def fyStep (arr : Array α) (i j : Nat) : Array α :=
  if h : i < arr.size ∧ j < arr.size then arr.swap ⟨i, h.1⟩ ⟨j, h.2⟩ else arr

/-- `for (let i = items.length - 1; i > 0; i--)` of the Fisher–Yates
shuffle; `js` supplies the successive `Math.random` draws, and
`Math.floor(Math.random() * (i + 1))` is modelled as `j % (i + 1)`,
which ranges over exactly the indices the source can produce. -/
def fisherYates (arr : Array α) : Nat → List Nat → Array α
  | 0, _ => arr
  | _ + 1, [] => arr
  | i + 1, j :: js => fisherYates (fyStep arr (i + 1) (j % (i + 2))) i js

def shuffleList (l : List α) (js : List Nat) : List α :=
  (fisherYates l.toArray (l.length - 1) js).toList

/-- `revealRound(roomId)`.  `round?` is the latest-round lookup, `subs`
that round's submissions and `js` the randomness consumed by the
shuffle.  Returns the updated round row and the anonymized
`(id, text)` items in shuffled order. -/
def revealRound (round? : Option Round) (subs : List Submission)
    (js : List Nat) : Except String (Round × List (String × String)) :=
  match round? with
  | none => .error "No round to reveal"
  | some round =>
    let items := subs.map (fun s => (s.id, s.text))
    let shuffled := shuffleList items js
    .ok ({ round with reveal_order := some (shuffled.map (·.1)) }, shuffled)

/-! ### upsertGuess / setVotes -/

structure GuessRow where
  round_id : String
  player_id : String
  answer_id : String
deriving Repr, DecidableEq

structure VoteRow where
  round_id : String
  player_id : String
  answer_id : String
deriving Repr, DecidableEq

/-- The `guesses` and `votes` tables. -/
structure GVState where
  guesses : List GuessRow
  votes : List VoteRow
deriving Repr, DecidableEq

def matchG (roundId playerId : String) (g : GuessRow) : Bool :=
  g.round_id == roundId && g.player_id == playerId

def matchV (roundId playerId : String) (v : VoteRow) : Bool :=
  v.round_id == roundId && v.player_id == playerId

/-- `upsertGuess(roundId, playerId, submissionId)`: delete the player's
existing guess rows for the round, then insert the new one. -/
def upsertGuess (st : GVState) (roundId playerId submissionId : String) : GVState :=
  { st with guesses :=
      st.guesses.filter (fun g => !matchG roundId playerId g)
        ++ [{ round_id := roundId, player_id := playerId, answer_id := submissionId }] }

/-- `setVotes(roundId, playerId, submissionIds)`: cap at 2 via
`slice(0, 2)`, delete the player's vote rows for the round, and insert
the capped rows unless the list is empty (the early `return`). -/
def setVotes (st : GVState) (roundId playerId : String)
    (submissionIds : List String) : GVState :=
  let ids := submissionIds.take 2
  let deleted := st.votes.filter (fun v => !matchV roundId playerId v)
  if ids.length == 0 then { st with votes := deleted }
  else
    { st with votes :=
        deleted ++ ids.map (fun id =>
          { round_id := roundId, player_id := playerId, answer_id := id }) }

/-- A client call against the two tables. -/
inductive GVOp where
  | guess (roundId playerId submissionId : String)
  | vote (roundId playerId : String) (submissionIds : List String)
deriving Repr, DecidableEq

def applyOp (st : GVState) : GVOp → GVState
  | .guess r p a => upsertGuess st r p a
  | .vote r p ids => setVotes st r p ids

def applyOps (st : GVState) (ops : List GVOp) : GVState := ops.foldl applyOp st

def emptyGV : GVState := { guesses := [], votes := [] }

/-! ### finalizeRound -/

/-- `new Map((subs || []).map(s => [s.id, s.player_id]))`: a JS `Map`
built from an entry list keeps the last entry for a repeated key. -/
def subByIdGet (subs : List Submission) (answerId : String) : Option String :=
  (subs.reverse.find? (fun s => s.id == answerId)).map (·.player_id)

/-- The `for (const s of subs) { if (s.player_id === round.owner_id) ... break }`
loop: id of the first submission authored by the round owner. -/
def computeOwnerAnswerId (subs : List Submission) (ownerId : Option String) :
    Option String :=
  (subs.find? (fun s => ownerId == some s.player_id)).map (·.id)

/-- `(guesses || []).filter(g => ownerAnswerId && g.answer_id === ownerAnswerId)`. -/
def correctGuessPred (ownerAnswerId : Option String) (g : Guess) : Bool :=
  match ownerAnswerId with
  | some a => strTruthy a && g.answer_id == a
  | none => false

/-- The vote-tally loop: `voteCounts[v.answer_id] = (voteCounts[v.answer_id] || 0) + 1`. -/
def tallyVotes (votes : List Vote) : List (String × Nat) :=
  votes.foldl (fun m v => alBump m v.answer_id 1) []

/-- The chameleon loop: `lb.chameleon[pid] = (lb.chameleon[pid] || 0) + 1`. -/
def awardChameleon (m : List (String × Nat)) (correctGuessers : List String) :
    List (String × Nat) :=
  correctGuessers.foldl (fun acc pid => alBump acc pid 1) m

/-- The crowd loop over `Object.entries(voteCounts)`:
`if (!ownerPid) continue; lb.crowd[ownerPid] += count`. -/
def awardCrowd (subs : List Submission) (m : List (String × Nat))
    (voteCounts : List (String × Nat)) : List (String × Nat) :=
  voteCounts.foldl (fun acc kv =>
    match subByIdGet subs kv.1 with
    | some ownerPid => if strTruthy ownerPid then alBump acc ownerPid kv.2 else acc
    | none => acc) m

def emptyLeaderboards : Leaderboards := { chameleon := [], crowd := [] }

/-- `finalizeRound(roomId)`.  `round?` is the latest-round lookup
(`select('id, owner_id')`), `subs`/`guesses`/`votes` that round's rows,
and `room` the room row.  Returns the computed results together with
the updated round and room rows.  NOTE: the leaderboard fetch is
`select('leaderboards')`, so the fetched record carries no
`round_index`; `(room as any).round_index` is `undefined` there. -/
def finalizeRound (round? : Option Round) (subs : List Submission)
    (guesses : List Guess) (votes : List Vote) (room : Room) :
    Except String (RoundResults × Round × Room) :=
  match round? with
  | none => .error "No round found"
  | some round =>
    let ownerAnswerId := computeOwnerAnswerId subs round.owner_id
    let correctGuessers :=
      (guesses.filter (correctGuessPred ownerAnswerId)).map (·.player_id)
    let voteCounts := tallyVotes votes
    let results : RoundResults :=
      { ownerAnswerId := ownerAnswerId, correctGuessers := correctGuessers,
        voteCounts := voteCounts }
    let round' := { round with results := some results }
    let lb := room.leaderboards.getD emptyLeaderboards
    let fetchedRoundIndex : Option Nat := none
    let lb' : Leaderboards :=
      { chameleon := awardChameleon lb.chameleon correctGuessers,
        crowd := awardCrowd subs lb.crowd voteCounts }
    let room' :=
      { room with leaderboards := some lb', status := "results",
                  round_index := fetchedRoundIndex.getD 0 + 1 }
    .ok (results, round', room')

/-! ### Derived notions used to state the claims -/

/-- Whom a vote on `answerId` credits: the (Map-resolved) author of the
submission, unless that author id is falsy (`if (!ownerPid) continue`). -/
def crowdRecipient (subs : List Submission) (answerId : String) : Option String :=
  match subByIdGet subs answerId with
  | some pid => if strTruthy pid then some pid else none
  | none => none

/-- Total crowd points player `p` earns in one finalize: one per vote
cast on a submission credited to `p`. -/
def crowdAward (subs : List Submission) (votes : List Vote) (p : String) : Nat :=
  votes.countP (fun v => crowdRecipient subs v.answer_id == some p)

/-- Chameleon score map of a room (missing map reads as empty). -/
def lbc (room : Room) : List (String × Nat) :=
  (room.leaderboards.getD emptyLeaderboards).chameleon

/-- Crowd score map of a room (missing map reads as empty). -/
def lbw (room : Room) : List (String × Nat) :=
  (room.leaderboards.getD emptyLeaderboards).crowd

/-- The connected players that have opted in (non-empty selection). -/
def optedInPlayers (players : List Player) : List Player :=
  (players.filter (·.connected)).filter (fun p => !p.selected_categories.isEmpty)

/-- Sum of the values of the entries whose key satisfies `P`. -/
def sumP (m : List (String × Nat)) (P : String → Bool) : Nat :=
  (m.map (fun kv => if P kv.1 then kv.2 else 0)).sum

/-- The RoundResults value one finalize invocation computes. -/
def mkResults (round : Round) (subs : List Submission) (guesses : List Guess)
    (votes : List Vote) : RoundResults :=
  let ownerAnswerId := computeOwnerAnswerId subs round.owner_id
  { ownerAnswerId := ownerAnswerId
    correctGuessers := (guesses.filter (correctGuessPred ownerAnswerId)).map (·.player_id)
    voteCounts := tallyVotes votes }

/-- The room row one finalize invocation writes back. -/
def mkRoomAfter (room : Room) (subs : List Submission) (results : RoundResults) :
    Room :=
  let lb := room.leaderboards.getD emptyLeaderboards
  { room with
    leaderboards := some
      { chameleon := awardChameleon lb.chameleon results.correctGuessers
        crowd := awardCrowd subs lb.crowd results.voteCounts }
    status := "results"
    round_index := (none : Option Nat).getD 0 + 1 }

/-! ### Concrete fixtures for witnesses and counterexamples -/

def exAlice : Player :=
  { id := "id-alice", name := "Alice", avatar := "red", connected := true,
    selected_categories := ["headline_hijack"] }

def exBob : Player :=
  { id := "id-bob", name := "Bob", avatar := "blue", connected := true,
    selected_categories := ["headline_hijack"] }

def exCarol : Player :=
  { id := "id-carol", name := "Carol", avatar := "green", connected := true,
    selected_categories := ["headline_hijack"] }

def exRoomAt (c : Nat) : Room :=
  { id := "R1", host_device_id := "host", status := "lobby",
    category_pool := ["headline_hijack"], round_index := c, leaderboards := none }

def exRoomLobby : Room := exRoomAt 0

def exPlayersABC : List Player := [exBob, exCarol, exAlice]

/-- Owner chosen by `startRound` at round counter `c` with the fixture
players. -/
def ownerAt (c : Nat) : Option String :=
  match startRound (some (exRoomAt c)) exPlayersABC {} 0 "r1" 0 with
  | .ok (rd, _) => rd.owner_id
  | .error _ => none

def exCatA : Player :=
  { id := "pa", name := "Ann", avatar := "red", connected := true,
    selected_categories := ["headline_hijack", "law_or_nah"] }

def exCatB : Player :=
  { id := "pb", name := "Ben", avatar := "blue", connected := true,
    selected_categories := ["law_or_nah", "meme_mash"] }

def exCatC : Player :=
  { id := "pc", name := "Cid", avatar := "green", connected := true,
    selected_categories := [] }

def exS1 : Submission := { id := "s1", player_id := "pa", text := "t1" }
def exS2 : Submission := { id := "s2", player_id := "pb", text := "t2" }

def exRound0 : Round :=
  { id := "r1", room_id := "R1", category := "headline_hijack", prompt := "x",
    deadline := 0, owner_id := some "pa", reveal_order := none, results := none }

def exGuessB : Guess := { player_id := "pb", answer_id := "s1" }

def exVotes : List Vote :=
  [{ player_id := "pc", answer_id := "s2" }, { player_id := "pb", answer_id := "s2" }]

def exRoomF : Room :=
  { id := "R1", host_device_id := "host", status := "inRound",
    category_pool := ["headline_hijack"], round_index := 5, leaderboards := none }

def exRes : RoundResults :=
  { ownerAnswerId := some "s1", correctGuessers := ["pb"], voteCounts := [("s2", 2)] }

def exRoundDone : Round := { exRound0 with results := some exRes }

def exRoomF1 : Room :=
  { exRoomF with
    status := "results"
    round_index := 1
    leaderboards := some { chameleon := [("pb", 1)], crowd := [("pb", 2)] } }

def exRoomF2 : Room :=
  { exRoomF with
    status := "results"
    round_index := 1
    leaderboards := some { chameleon := [("pb", 2)], crowd := [("pb", 4)] } }

def exRevealed1 : Round := { exRound0 with reveal_order := some ["s2", "s1"] }
def exRevealed2 : Round := { exRound0 with reveal_order := some ["s1", "s2"] }

/-! ### Association-list lemmas -/

theorem alGet_alSet_self (m : List (String × Nat)) (k : String) (v : Nat) :
    alGet (alSet m k v) k = v := by
  induction m with
  | nil => simp [alSet, alGet]
  | cons kv rest ih =>
    by_cases h : kv.1 == k
    · simp [alSet, alGet, h]
    · simp [alSet, alGet, h, ih]

theorem alGet_alSet_ne (m : List (String × Nat)) (k k' : String) (v : Nat)
    (h : k' ≠ k) : alGet (alSet m k v) k' = alGet m k' := by
  induction m with
  | nil =>
    simp [alSet, alGet]
    intro hkk
    exact absurd hkk.symm h
  | cons kv rest ih =>
    by_cases hk : kv.1 == k
    · have hk' : kv.1 = k := by simpa using hk
      subst hk'
      have hne : (kv.1 == k') = false := by
        simp only [beq_eq_false_iff_ne, ne_eq]
        exact fun hh => h hh.symm
      simp [alSet, alGet, hne]
    · simp [alSet, alGet, hk, ih]

theorem alGet_alBump_self (m : List (String × Nat)) (k : String) (n : Nat) :
    alGet (alBump m k n) k = alGet m k + n := by
  simp [alBump, alGet_alSet_self]

theorem alGet_alBump_ne (m : List (String × Nat)) (k k' : String) (n : Nat)
    (h : k' ≠ k) : alGet (alBump m k n) k' = alGet m k' := by
  simp [alBump, alGet_alSet_ne _ _ _ _ h]


theorem sumP_alBump (m : List (String × Nat)) (k : String) (n : Nat)
    (P : String → Bool) :
    sumP (alBump m k n) P = sumP m P + (if P k then n else 0) := by
  induction m with
  | nil =>
    by_cases h : P k <;> simp [alBump, alSet, alGet, sumP, h]
  | cons kv rest ih =>
    by_cases hk : kv.1 == k
    · have hk' : kv.1 = k := by simpa using hk
      subst hk'
      simp [alBump, alSet, alGet, sumP]
      by_cases h : P kv.1
      · simp [h]
        omega
      · simp [h]
    · have hstep : alBump (kv :: rest) k n = kv :: alBump rest k n := by
        simp [alBump, alSet, alGet, hk]
      rw [hstep]
      simp only [sumP, List.map_cons, List.sum_cons] at ih ⊢
      omega

theorem sumP_tallyVotes (votes : List Vote) (P : String → Bool) :
    sumP (tallyVotes votes) P = votes.countP (fun v => P v.answer_id) := by
  induction votes using List.reverseRecOn with
  | nil => simp [tallyVotes, sumP]
  | append_singleton vs v ih =>
    have hfold : tallyVotes (vs ++ [v]) = alBump (tallyVotes vs) v.answer_id 1 := by
      simp [tallyVotes, List.foldl_append]
    rw [hfold, sumP_alBump, ih, List.countP_append]
    simp [List.countP_cons]

theorem alGet_tallyVotes (votes : List Vote) (aid : String) :
    alGet (tallyVotes votes) aid = votes.countP (fun v => v.answer_id == aid) := by
  induction votes using List.reverseRecOn with
  | nil => simp [tallyVotes, alGet]
  | append_singleton vs v ih =>
    have hfold : tallyVotes (vs ++ [v]) = alBump (tallyVotes vs) v.answer_id 1 := by
      simp [tallyVotes, List.foldl_append]
    rw [hfold, List.countP_append]
    by_cases h : aid = v.answer_id
    · subst h
      rw [alGet_alBump_self, ih]
      simp
    · rw [alGet_alBump_ne _ _ _ _ h, ih]
      simp [List.countP_cons]
      intro hv
      exact absurd hv.symm h

theorem alGet_awardChameleon (m : List (String × Nat)) (l : List String)
    (p : String) : alGet (awardChameleon m l) p = alGet m p + l.count p := by
  induction l generalizing m with
  | nil => simp [awardChameleon]
  | cons q rest ih =>
    have hstep : awardChameleon m (q :: rest) = awardChameleon (alBump m q 1) rest := by
      simp [awardChameleon]
    rw [hstep, ih]
    by_cases h : p = q
    · subst h
      rw [alGet_alBump_self]
      simp [List.count_cons]
      omega
    · rw [alGet_alBump_ne _ _ _ _ h]
      have : q ≠ p := fun hqp => h hqp.symm
      simp [List.count_cons, h]

theorem alGet_awardCrowd (subs : List Submission) (m vc : List (String × Nat))
    (p : String) :
    alGet (awardCrowd subs m vc) p =
      alGet m p + sumP vc (fun aid => crowdRecipient subs aid == some p) := by
  induction vc generalizing m with
  | nil => simp [awardCrowd, sumP]
  | cons kv rest ih =>
    have hsum : sumP (kv :: rest) (fun aid => crowdRecipient subs aid == some p) =
        (if crowdRecipient subs kv.1 == some p then kv.2 else 0) +
          sumP rest (fun aid => crowdRecipient subs aid == some p) := by
      simp [sumP]
    cases hrec : subByIdGet subs kv.1 with
    | none =>
      have hstep : awardCrowd subs m (kv :: rest) = awardCrowd subs m rest := by
        simp [awardCrowd, hrec]
      rw [hstep, ih, hsum]
      simp [crowdRecipient, hrec]
    | some pid =>
      by_cases htr : strTruthy pid
      · have hstep : awardCrowd subs m (kv :: rest) =
            awardCrowd subs (alBump m pid kv.2) rest := by
          simp [awardCrowd, hrec, htr]
        rw [hstep, ih, hsum]
        by_cases hp : pid = p
        · subst hp
          rw [alGet_alBump_self]
          simp [crowdRecipient, hrec, htr]
          omega
        · rw [alGet_alBump_ne _ _ _ _ (fun hpp => hp hpp.symm)]
          simp [crowdRecipient, hrec, htr, hp]
      · have hstep : awardCrowd subs m (kv :: rest) = awardCrowd subs m rest := by
          simp [awardCrowd, hrec, htr]
        rw [hstep, ih, hsum]
        simp [crowdRecipient, hrec, htr]

/-- Crowd points added by one finalize, summed over the tally, equal one
point per vote credited to `p`. -/
theorem alGet_awardCrowd_tally (subs : List Submission) (m : List (String × Nat))
    (votes : List Vote) (p : String) :
    alGet (awardCrowd subs m (tallyVotes votes)) p = alGet m p + crowdAward subs votes p := by
  rw [alGet_awardCrowd, sumP_tallyVotes]
  rfl

/-! ### List helper lemmas -/

theorem find?_eq_filter_head? {α : Type} (p : α → Bool) (l : List α) :
    l.find? p = (l.filter p).head? := by
  induction l with
  | nil => rfl
  | cons a rest ih =>
    by_cases h : p a
    · rw [List.find?_cons_of_pos _ h, List.filter_cons_of_pos h, List.head?_cons]
    · rw [List.find?_cons_of_neg _ h, List.filter_cons_of_neg (by simpa using h), ih]

/-- Rows surviving a delete of the (round, player) pair contribute no
rows matching that pair. -/
theorem countP_filter_not_self {α : Type} (p : α → Bool) (l : List α) :
    (l.filter (fun a => !p a)).countP p = 0 := by
  rw [List.countP_eq_zero]
  intro a ha
  have := (List.mem_filter.mp ha).2
  simpa using this

theorem countP_filter_le_of_countP_le {α : Type} (p q : α → Bool) (l : List α)
    (n : Nat) (h : l.countP p ≤ n) : (l.filter q).countP p ≤ n :=
  le_trans (List.Sublist.countP_le p (List.filter_sublist l)) h

/-- One `upsertGuess`/`setVotes` call preserves the per-(round, player)
row bounds, for every pair. -/
theorem countP_singleton_row {α : Type} (p : α → Bool) (a : α) :
    ([a] : List α).countP p = if p a then 1 else 0 := by
  rw [List.countP_cons, List.countP_nil]
  omega

theorem gv_applyOp_preserves (st : GVState) (op : GVOp) (r p : String)
    (hg : st.guesses.countP (matchG r p) ≤ 1)
    (hv : st.votes.countP (matchV r p) ≤ 2) :
    (applyOp st op).guesses.countP (matchG r p) ≤ 1 ∧
      (applyOp st op).votes.countP (matchV r p) ≤ 2 := by
  cases op with
  | guess r' p' a =>
    refine ⟨?_, hv⟩
    show (st.guesses.filter (fun g => !matchG r' p' g)
        ++ [({ round_id := r', player_id := p', answer_id := a } : GuessRow)]).countP
          (matchG r p) ≤ 1
    rw [List.countP_append, countP_singleton_row]
    have h2 := countP_filter_le_of_countP_le (matchG r p)
      (fun g => !matchG r' p' g) st.guesses 1 hg
    by_cases hpair : r' = r ∧ p' = p
    · obtain ⟨hr, hp⟩ := hpair
      subst hr; subst hp
      rw [countP_filter_not_self]
      split <;> omega
    · have hrow : matchG r p { round_id := r', player_id := p', answer_id := a } = false := by
        simp only [matchG]
        by_cases hr : r' = r
        · have hp : p' ≠ p := fun hp => hpair ⟨hr, hp⟩
          simp [hr, hp]
        · simp [hr]
      rw [hrow]
      simp only [Bool.false_eq_true, if_false]
      omega
  | vote r' p' ids =>
    have hdel := countP_filter_le_of_countP_le (matchV r p)
      (fun v => !matchV r' p' v) st.votes 2 hv
    constructor
    · show (setVotes st r' p' ids).guesses.countP (matchG r p) ≤ 1
      simp only [setVotes]
      split <;> exact hg
    · show (setVotes st r' p' ids).votes.countP (matchV r p) ≤ 2
      simp only [setVotes]
      split
      · exact hdel
      · rw [List.countP_append]
        have hmap : ((ids.take 2).map (fun id =>
            ({ round_id := r', player_id := p', answer_id := id } : VoteRow))).countP
              (matchV r p) ≤ 2 := by
          calc ((ids.take 2).map (fun id =>
              ({ round_id := r', player_id := p', answer_id := id } : VoteRow))).countP
                (matchV r p)
              ≤ ((ids.take 2).map (fun id =>
                ({ round_id := r', player_id := p', answer_id := id } : VoteRow))).length :=
                List.countP_le_length _
            _ = (ids.take 2).length := List.length_map _ _
            _ ≤ 2 := List.length_take_le 2 ids
        by_cases hpair : r' = r ∧ p' = p
        · obtain ⟨hr, hp⟩ := hpair
          subst hr; subst hp
          rw [countP_filter_not_self]
          omega
        · have hzero : ((ids.take 2).map (fun id =>
              ({ round_id := r', player_id := p', answer_id := id } : VoteRow))).countP
                (matchV r p) = 0 := by
            rw [List.countP_eq_zero]
            intro v hvmem
            obtain ⟨id, _, hvv⟩ := List.mem_map.mp hvmem
            subst hvv
            simp only [matchV]
            by_cases hr : r' = r
            · have hp : p' ≠ p := fun hp => hpair ⟨hr, hp⟩
              simp [hr, hp]
            · simp [hr]
          omega

/-- The row bounds hold for every pair after any call sequence from the
empty tables. -/
theorem gv_applyOps_bounds (ops : List GVOp) (st : GVState) (r p : String)
    (hg : st.guesses.countP (matchG r p) ≤ 1)
    (hv : st.votes.countP (matchV r p) ≤ 2) :
    (applyOps st ops).guesses.countP (matchG r p) ≤ 1 ∧
      (applyOps st ops).votes.countP (matchV r p) ≤ 2 := by
  induction ops generalizing st with
  | nil => exact ⟨hg, hv⟩
  | cons op rest ih =>
    have hstep := gv_applyOp_preserves st op r p hg hv
    have : applyOps st (op :: rest) = applyOps (applyOp st op) rest := by
      simp [applyOps]
    rw [this]
    exact ih (applyOp st op) hstep.1 hstep.2


/-! ### More helper lemmas -/

theorem getD_mod_mem (l : List String) (h : l ≠ []) (r : Nat) :
    l.getD (r % l.length) "" ∈ l := by
  have hlen : 0 < l.length := List.length_pos.mpr h
  have hlt : r % l.length < l.length := Nat.mod_lt r hlen
  rw [List.getD_eq_getElem?_getD, List.getElem?_eq_getElem hlt]
  exact List.getElem_mem hlt

theorem perm_all_eq {α : Type} {l₁ l₂ : List α} (h : l₁.Perm l₂) (f : α → Bool) :
    l₁.all f = l₂.all f := by
  by_cases h2 : l₂.all f = true
  · rw [h2, List.all_eq_true]
    intro x hx
    exact List.all_eq_true.mp h2 x (h.mem_iff.mp hx)
  · have h2f : l₂.all f = false := by
      cases hv : l₂.all f
      · rfl
      · exact absurd hv h2
    rw [h2f]
    cases hv : l₁.all f
    · rfl
    · exact absurd (List.all_eq_true.mpr
        (fun x hx => List.all_eq_true.mp hv x (h.mem_iff.mpr hx))) h2

/-! ### Claim theorems -/

/-- C10: getPrompt is total: for every category string and every random
draw it returns a member of one of the three fixed prompt pools, and for
a category outside the three known ones it falls back to the headline
pool; consequently startRound with an arbitrary non-empty category
override never fails during prompt selection. -/
theorem getPrompt_total (category : String) (rand : Nat) :
    (getPrompt category rand ∈ HEADLINE ∨ getPrompt category rand ∈ LAW ∨
      getPrompt category rand ∈ MEME) ∧
    (category ∉ allCategories → getPrompt category rand ∈ HEADLINE) ∧
    (∀ (room : Room) (players : List Player) (pt : Option String)
       (newRoundId : String) (now : Nat), category ≠ "" →
       (startRound (some room) players
          { category := some category, promptText := pt } rand newRoundId now).isOk = true) := by
  have hH : HEADLINE ≠ [] := by decide
  have hL : LAW ≠ [] := by decide
  have hM : MEME ≠ [] := by decide
  refine ⟨?_, ?_, ?_⟩
  · by_cases h1 : category = "headline_hijack"
    · exact Or.inl (by simpa [getPrompt, promptPools, h1] using getD_mod_mem HEADLINE hH rand)
    · by_cases h2 : category = "law_or_nah"
      · exact Or.inr (Or.inl
          (by simpa [getPrompt, promptPools, h1, h2] using getD_mod_mem LAW hL rand))
      · by_cases h3 : category = "meme_mash"
        · exact Or.inr (Or.inr
            (by simpa [getPrompt, promptPools, h1, h2, h3] using getD_mod_mem MEME hM rand))
        · exact Or.inl
            (by simpa [getPrompt, promptPools, h1, h2, h3] using getD_mod_mem HEADLINE hH rand)
  · intro hunk
    have h1 : category ≠ "headline_hijack" := fun h => hunk (by simp [allCategories, h])
    have h2 : category ≠ "law_or_nah" := fun h => hunk (by simp [allCategories, h])
    have h3 : category ≠ "meme_mash" := fun h => hunk (by simp [allCategories, h])
    simpa [getPrompt, promptPools, h1, h2, h3] using getD_mod_mem HEADLINE hH rand
  · intro room players pt newRoundId now hc
    have htr : strTruthy category = true := by
      simp [strTruthy]
      exact hc
    simp [startRound, optTruthy, htr, Except.isOk, Except.toBool]

/-- C10 witness. -/
theorem getPrompt_total_witness :
    getPrompt "bogus" 7 ∈ HEADLINE ∧
    (startRound (some (exRoomAt 0)) []
       { category := some "law_or_nah", promptText := none } 7 "r1" 0).isOk = true :=
  ⟨(getPrompt_total "bogus" 7).2.1 (by decide),
   (getPrompt_total "law_or_nah" 7).2.2 (exRoomAt 0) [] none "r1" 0 (by decide)⟩

/-- C9: computeCategoryIntersection excludes connected players whose
selected-category set is empty; a category is in the result exactly when
it is in the fixed global list, at least one opted-in connected player
remains, and every remaining player selected it; the result is invariant
under permutation of the player set; concretely A:{headline,law},
B:{law,meme}, C:{} yields {law}. -/
theorem computeCategoryIntersection_correct :
    (∀ (players : List Player) (c : String),
       c ∈ computeCategoryIntersection players ↔
         (c ∈ allCategories ∧ optedInPlayers players ≠ [] ∧
           ∀ p ∈ optedInPlayers players, p.selected_categories.contains c = true)) ∧
    (∀ players₁ players₂ : List Player, players₁.Perm players₂ →
       computeCategoryIntersection players₁ = computeCategoryIntersection players₂) ∧
    computeCategoryIntersection [exCatA, exCatB, exCatC] = ["law_or_nah"] := by
  refine ⟨?_, ?_, by decide⟩
  · intro players c
    by_cases h0 : ((players.filter (·.connected)).length == 0) = true
    · have hval : computeCategoryIntersection players = [] := by
        simp only [computeCategoryIntersection]
        rw [if_pos h0]
      have hnil : players.filter (·.connected) = [] := by
        rw [← List.length_eq_zero]
        simpa using h0
      have hopt : optedInPlayers players = [] := by
        unfold optedInPlayers
        rw [hnil]
        rfl
      rw [hval, hopt]
      simp
    · by_cases h1 : (((players.filter (·.connected)).filter
          (fun p => !p.selected_categories.isEmpty)).length == 0) = true
      · have hval : computeCategoryIntersection players = [] := by
          simp only [computeCategoryIntersection]
          rw [if_neg h0, if_pos h1]
        have hopt : optedInPlayers players = [] := by
          unfold optedInPlayers
          rw [← List.length_eq_zero]
          simpa using h1
        rw [hval, hopt]
        simp
      · have hval : computeCategoryIntersection players =
            allCategories.filter (fun category =>
              (optedInPlayers players).all
                (fun p => p.selected_categories.contains category)) := by
          simp only [computeCategoryIntersection, optedInPlayers]
          rw [if_neg h0, if_neg h1]
        have hne : optedInPlayers players ≠ [] := by
          unfold optedInPlayers
          intro hcon
          apply h1
          rw [hcon]
          rfl
        rw [hval, List.mem_filter]
        constructor
        · rintro ⟨hmem, hall⟩
          exact ⟨hmem, hne, fun p hp => List.all_eq_true.mp hall p hp⟩
        · rintro ⟨hmem, -, hall⟩
          exact ⟨hmem, List.all_eq_true.mpr hall⟩
  · intro l₁ l₂ hperm
    have hc : (l₁.filter (·.connected)).Perm (l₂.filter (·.connected)) :=
      hperm.filter _
    have ho : ((l₁.filter (·.connected)).filter
          (fun p => !p.selected_categories.isEmpty)).Perm
        ((l₂.filter (·.connected)).filter (fun p => !p.selected_categories.isEmpty)) :=
      hc.filter _
    have hlen : (l₁.filter (·.connected)).length = (l₂.filter (·.connected)).length :=
      hc.length_eq
    have hlen2 := ho.length_eq
    by_cases h0 : ((l₂.filter (·.connected)).length == 0) = true
    · have h0' : ((l₁.filter (·.connected)).length == 0) = true := by
        rw [hlen]
        exact h0
      simp only [computeCategoryIntersection]
      rw [if_pos h0, if_pos h0']
    · have h0' : ¬((l₁.filter (·.connected)).length == 0) = true := by
        rw [hlen]
        exact h0
      by_cases h1 : (((l₂.filter (·.connected)).filter
          (fun p => !p.selected_categories.isEmpty)).length == 0) = true
      · have h1' : (((l₁.filter (·.connected)).filter
            (fun p => !p.selected_categories.isEmpty)).length == 0) = true := by
          rw [hlen2]
          exact h1
        simp only [computeCategoryIntersection]
        rw [if_neg h0, if_neg h0', if_pos h1, if_pos h1']
      · have h1' : ¬(((l₁.filter (·.connected)).filter
            (fun p => !p.selected_categories.isEmpty)).length == 0) = true := by
          rw [hlen2]
          exact h1
        simp only [computeCategoryIntersection]
        rw [if_neg h0, if_neg h0', if_neg h1, if_neg h1']
        exact List.filter_congr (fun c _ => perm_all_eq ho _)

/-- C9 witness. -/
theorem computeCategoryIntersection_correct_witness :
    computeCategoryIntersection [exCatA, exCatB] =
      computeCategoryIntersection [exCatB, exCatA] :=
  computeCategoryIntersection_correct.2.1 [exCatA, exCatB] [exCatB, exCatA]
    (List.Perm.swap exCatB exCatA [])

/-- C8: for every (round, player) pair, after any sequence of
upsertGuess/setVotes calls (by any players) from empty tables at most
one guess row and at most two vote rows exist for the pair; upsertGuess
replaces any prior guess, setVotes replaces the whole vote set capped at
2 entries, and an empty vote list clears the set without inserting. -/
theorem guess_vote_row_bounds :
    (∀ (ops : List GVOp) (roundId playerId : String),
       (applyOps emptyGV ops).guesses.countP (matchG roundId playerId) ≤ 1 ∧
         (applyOps emptyGV ops).votes.countP (matchV roundId playerId) ≤ 2) ∧
    (∀ (st : GVState) (roundId playerId submissionId : String),
       (upsertGuess st roundId playerId submissionId).guesses.filter
           (matchG roundId playerId) =
         [{ round_id := roundId, player_id := playerId, answer_id := submissionId }]) ∧
    (∀ (st : GVState) (roundId playerId : String) (submissionIds : List String),
       (setVotes st roundId playerId submissionIds).votes.filter
           (matchV roundId playerId) =
         (submissionIds.take 2).map (fun id =>
           { round_id := roundId, player_id := playerId, answer_id := id })) ∧
    (∀ (st : GVState) (roundId playerId : String),
       (setVotes st roundId playerId []).votes =
         st.votes.filter (fun v => !matchV roundId playerId v)) := by
  refine ⟨?_, ?_, ?_, ?_⟩
  · intro ops roundId playerId
    exact gv_applyOps_bounds ops emptyGV roundId playerId (by simp [emptyGV])
      (by simp [emptyGV])
  · intro st roundId playerId submissionId
    show (st.guesses.filter (fun g => !matchG roundId playerId g)
        ++ [({ round_id := roundId, player_id := playerId,
               answer_id := submissionId } : GuessRow)]).filter
          (matchG roundId playerId) = _
    rw [List.filter_append]
    have h1 : (st.guesses.filter (fun g => !matchG roundId playerId g)).filter
        (matchG roundId playerId) = [] := by
      rw [List.filter_eq_nil_iff]
      intro g hg
      have := (List.mem_filter.mp hg).2
      simpa using this
    have h2 : ([({ round_id := roundId, player_id := playerId, answer_id := submissionId } : GuessRow)]).filter (matchG roundId playerId) =
        [{ round_id := roundId, player_id := playerId, answer_id := submissionId }] := by
      rw [List.filter_eq_self]
      intro a ha
      rw [List.mem_singleton] at ha
      subst ha
      simp [matchG]
    rw [h1, h2, List.nil_append]
  · intro st roundId playerId submissionIds
    have hdel : (st.votes.filter (fun v => !matchV roundId playerId v)).filter
        (matchV roundId playerId) = [] := by
      rw [List.filter_eq_nil_iff]
      intro v hv
      have := (List.mem_filter.mp hv).2
      simpa using this
    simp only [setVotes]
    split
    · rename_i hlen
      have : submissionIds.take 2 = [] := by
        rw [← List.length_eq_zero]
        simpa using hlen
      rw [hdel, this]
      rfl
    · rw [List.filter_append, hdel, List.nil_append, List.filter_eq_self.mpr]
      intro v hv
      obtain ⟨id, _, hvv⟩ := List.mem_map.mp hv
      subst hvv
      simp [matchV]
  · intro st roundId playerId
    rfl

/-- C7 counterexample: joining with a color/avatar already taken by a
connected player in the room succeeds; the code performs no avatar
uniqueness check, contradicting the claimed Conflict error. -/
theorem joinRoom_duplicate_avatar_succeeds :
    exAlice.avatar = "red" ∧ exAlice.connected = true ∧
    exRoomLobby.status = "lobby" ∧
    joinRoom (some exRoomLobby) [exAlice] "Zoe" "red" "pz" =
      .ok ("pz", [exAlice,
        { id := "pz", name := "Zoe", avatar := "red", connected := true,
          selected_categories := [] }]) :=
  ⟨rfl, rfl, rfl, rfl⟩

/-- C7 (amended): joinRoom fails with RoomNotFound for an unknown code,
RoomNotJoinable when the status is not lobby, RoomFull at 8 or more
connected players, and otherwise inserts the player with connected=true
and returns the new identity; it performs no color/avatar uniqueness
check. -/
theorem joinRoom_error_cases (players : List Player) (name avatar newId : String) :
    (joinRoom none players name avatar newId = .error "Room not found") ∧
    (∀ room : Room, room.status ≠ "lobby" →
       joinRoom (some room) players name avatar newId =
         .error "Room is not accepting new players") ∧
    (∀ room : Room, room.status = "lobby" →
       8 ≤ (players.filter (·.connected)).length →
       joinRoom (some room) players name avatar newId = .error "Room is full") ∧
    (∀ room : Room, room.status = "lobby" →
       (players.filter (·.connected)).length < 8 →
       joinRoom (some room) players name avatar newId =
         .ok (newId, players ++ [{ id := newId, name := name, avatar := avatar,
                                   connected := true, selected_categories := [] }])) := by
  refine ⟨rfl, ?_, ?_, ?_⟩
  · intro room hstat
    have h : (room.status != "lobby") = true := by
      simpa using hstat
    simp [joinRoom, h]
  · intro room hstat hfull
    have h : (room.status != "lobby") = false := by
      simpa using hstat
    simp only [joinRoom, h, Bool.false_eq_true, if_false]
    rw [if_pos hfull]
  · intro room hstat hlt
    have h : (room.status != "lobby") = false := by
      simpa using hstat
    have h2 : ¬(8 ≤ (players.filter (·.connected)).length) := by omega
    simp only [joinRoom, h, Bool.false_eq_true, if_false]
    rw [if_neg h2]

/-- C7 witness. -/
theorem joinRoom_error_cases_witness :
    joinRoom (some { exRoomLobby with status := "inRound" }) [] "Zoe" "red" "pz" =
      .error "Room is not accepting new players" ∧
    joinRoom (some exRoomLobby) [] "Zoe" "red" "pz" =
      .ok ("pz", [{ id := "pz", name := "Zoe", avatar := "red", connected := true,
                    selected_categories := [] }]) :=
  ⟨(joinRoom_error_cases [] "Zoe" "red" "pz").2.1 _ (by decide),
   (joinRoom_error_cases [] "Zoe" "red" "pz").2.2.2 exRoomLobby (by decide) (by decide)⟩

/-- C6: with at least one connected player, startRound picks as owner the
player at position (round counter mod player count) in the connected
players sorted by name case-insensitively; with the fixture players
[Alice, Bob, Carol] and counters 0,1,2,3 the owners cycle
Alice, Bob, Carol, Alice. -/
theorem startRound_owner_rotation :
    (∀ (room : Room) (players : List Player) (opts : StartOpts) (rand : Nat)
       (newRoundId : String) (now : Nat) (rd : Round) (rm : Room),
       startRound (some room) players opts rand newRoundId now = .ok (rd, rm) →
       0 < (sortByName (players.filter (·.connected))).length →
       rd.owner_id =
         ((sortByName (players.filter (·.connected))).get?
            (room.round_index % (sortByName (players.filter (·.connected))).length)).map
           (·.id)) ∧
    (ownerAt 0 = some "id-alice" ∧ ownerAt 1 = some "id-bob" ∧
      ownerAt 2 = some "id-carol" ∧ ownerAt 3 = some "id-alice") := by
  constructor
  · intro room players opts rand newRoundId now rd rm hok hpos
    simp only [startRound] at hok
    split at hok
    · exact absurd hok (by simp)
    · rw [Except.ok.injEq, Prod.mk.injEq] at hok
      obtain ⟨hrd, -⟩ := hok
      subst hrd
      have h1 : Nat.max 0 room.round_index = room.round_index := Nat.zero_max _
      have h2 : Nat.max 1 (sortByName (players.filter (·.connected))).length =
          (sortByName (players.filter (·.connected))).length :=
        Nat.max_eq_right hpos
      rw [h1, h2]
  · exact ⟨rfl, rfl, rfl, rfl⟩

/-- C6 witness. -/
theorem startRound_owner_rotation_witness :
    ownerAt 1 = ((sortByName (exPlayersABC.filter (·.connected))).get?
      ((exRoomAt 1).round_index %
        (sortByName (exPlayersABC.filter (·.connected))).length)).map (·.id) := by
  have hisok : (startRound (some (exRoomAt 1)) exPlayersABC {} 0 "r1" 0).isOk = true := by
    decide
  unfold ownerAt
  cases hok : startRound (some (exRoomAt 1)) exPlayersABC {} 0 "r1" 0 with
  | error e =>
    rw [hok] at hisok
    exact Bool.noConfusion hisok
  | ok v =>
    obtain ⟨rd, rm⟩ := v
    exact startRound_owner_rotation.1 (exRoomAt 1) exPlayersABC {} 0 "r1" 0 rd rm hok
      (by decide)

/-- C5 counterexample: startRound succeeds in a room with only two
connected players (a non-empty category pool and no override), so no
Conflict error is raised below the three-player threshold. -/
theorem startRound_two_players_succeeds :
    (List.filter (·.connected) [exAlice, exBob]).length = 2 ∧
    (startRound (some exRoomLobby) [exAlice, exBob] {} 0 "r1" 0).isOk = true :=
  ⟨rfl, rfl⟩

/-- C5 (amended): startRound fails with the Conflict error
"No categories available" exactly when the category pool is empty and no
truthy category override is supplied; it performs no minimum-player
check, succeeding for any connected player count otherwise; an unknown
room yields "Room not found". -/
theorem startRound_conflict_conditions (room : Room) (players : List Player)
    (opts : StartOpts) (rand : Nat) (newRoundId : String) (now : Nat) :
    (startRound (some room) players opts rand newRoundId now =
        .error "No categories available" ↔
      room.category_pool = [] ∧ optTruthy opts.category = false) ∧
    (room.category_pool ≠ [] ∨ optTruthy opts.category = true →
      (startRound (some room) players opts rand newRoundId now).isOk = true) ∧
    startRound none players opts rand newRoundId now = .error "Room not found" := by
  refine ⟨?_, ?_, rfl⟩
  · constructor
    · intro herr
      simp only [startRound] at herr
      split at herr
      · rename_i hcond
        rw [Bool.and_eq_true, beq_iff_eq, List.length_eq_zero] at hcond
        exact ⟨hcond.1, by simpa using hcond.2⟩
      · exact absurd herr (by simp)
    · rintro ⟨hpool, htr⟩
      have hcond : (room.category_pool.length == 0 && !(optTruthy opts.category)) = true := by
        rw [hpool, htr]
        rfl
      simp only [startRound]
      rw [if_pos hcond]
  · intro hor
    have hcond : (room.category_pool.length == 0 && !(optTruthy opts.category)) = false := by
      cases hor with
      | inl hne =>
        have : room.category_pool.length ≠ 0 := by
          intro hz
          exact hne (List.length_eq_zero.mp hz)
        simp [this]
      | inr htr => simp [htr]
    simp only [startRound]
    rw [if_neg (by simp [hcond])]
    rfl

/-- C5 witness. -/
theorem startRound_conflict_conditions_witness :
    startRound (some { exRoomLobby with category_pool := [] })
        [exAlice, exBob, exCarol] {} 0 "r1" 0 = .error "No categories available" ∧
    (startRound (some exRoomLobby) [exAlice] {} 0 "r1" 0).isOk = true :=
  ⟨(startRound_conflict_conditions { exRoomLobby with category_pool := [] }
      [exAlice, exBob, exCarol] {} 0 "r1" 0).1.mpr ⟨rfl, rfl⟩,
   (startRound_conflict_conditions exRoomLobby [exAlice] {} 0 "r1" 0).2.1
      (Or.inl (by decide))⟩

/-- C2 counterexample: revealRound performs no absence check on
reveal_order before writing; invoked twice on the same round with
different random draws it stores two different permutations, the second
overwriting the first, so the two callers observe different final
permutations. -/
theorem revealRound_second_write_counterexample :
    exRound0.reveal_order = none ∧
    revealRound (some exRound0) [exS1, exS2] [0] =
      .ok (exRevealed1, [("s2", "t2"), ("s1", "t1")]) ∧
    revealRound (some exRevealed1) [exS1, exS2] [1] =
      .ok (exRevealed2, [("s1", "t1"), ("s2", "t2")]) ∧
    exRevealed1.reveal_order = some ["s2", "s1"] ∧
    exRevealed2.reveal_order = some ["s1", "s2"] ∧
    exRevealed1.reveal_order ≠ exRevealed2.reveal_order :=
  ⟨rfl, rfl, rfl, rfl, rfl, by decide⟩

/-- C2 (amended): revealRound writes reveal_order unconditionally (no
first-write-wins guard): each invocation stores its own shuffled
permutation, and after two invocations the stored order is the second
call's, computed independently of the first call's write. -/
theorem revealRound_last_write_wins (round : Round) (subs : List Submission)
    (js₁ js₂ : List Nat) :
    ∀ rd₁ items₁, revealRound (some round) subs js₁ = .ok (rd₁, items₁) →
    ∀ rd₂ items₂, revealRound (some rd₁) subs js₂ = .ok (rd₂, items₂) →
      rd₁.reveal_order = some (items₁.map (·.1)) ∧
      rd₂.reveal_order = some (items₂.map (·.1)) ∧
      rd₂.reveal_order =
        some ((shuffleList (subs.map fun s => (s.id, s.text)) js₂).map (·.1)) := by
  intro rd₁ items₁ h₁ rd₂ items₂ h₂
  simp only [revealRound, Except.ok.injEq, Prod.mk.injEq] at h₁ h₂
  obtain ⟨hrd₁, hitems₁⟩ := h₁
  obtain ⟨hrd₂, hitems₂⟩ := h₂
  subst hrd₁ hrd₂ hitems₁ hitems₂
  exact ⟨rfl, rfl, rfl⟩

/-- C2 witness. -/
theorem revealRound_last_write_wins_witness :
    exRevealed2.reveal_order =
      some ((shuffleList ([exS1, exS2].map fun s => (s.id, s.text)) [1]).map (·.1)) :=
  (revealRound_last_write_wins exRound0 [exS1, exS2] [0] [1] exRevealed1
      [("s2", "t2"), ("s1", "t1")] rfl exRevealed2 [("s1", "t1"), ("s2", "t2")] rfl).2.2

/-- C4 (code bug): finalizeRound always writes round_index = 1 instead of
incrementing, because the room row is fetched with select('leaderboards')
only, so the code's (room as any).round_index reads undefined and
(undefined || 0) + 1 = 1; at prior counter 5 the spec's increment would
give 6.  The status is set to results as claimed. -/
theorem finalizeRound_round_index_reset_bug :
    exRoomF.round_index = 5 ∧
    finalizeRound (some exRound0) [exS1, exS2] [exGuessB] exVotes exRoomF =
      .ok (exRes, exRoundDone, exRoomF1) ∧
    exRoomF1.round_index = 1 ∧ exRoomF1.round_index ≠ exRoomF.round_index + 1 ∧
    exRoomF1.status = "results" :=
  ⟨rfl, rfl, rfl, by decide, rfl⟩


/-- finalizeRound on a present round, decomposed into its pieces. -/
theorem finalizeRound_some_eq (round : Round) (subs : List Submission)
    (guesses : List Guess) (votes : List Vote) (room : Room) :
    finalizeRound (some round) subs guesses votes room =
      .ok (mkResults round subs guesses votes,
           { round with results := some (mkResults round subs guesses votes) },
           mkRoomAfter room subs (mkResults round subs guesses votes)) := rfl

theorem lbc_mkRoomAfter (room : Room) (subs : List Submission)
    (results : RoundResults) :
    lbc (mkRoomAfter room subs results) =
      awardChameleon (lbc room) results.correctGuessers := rfl

theorem lbw_mkRoomAfter (room : Room) (subs : List Submission)
    (results : RoundResults) :
    lbw (mkRoomAfter room subs results) =
      awardCrowd subs (lbw room) results.voteCounts := rfl

/-- mkResults only reads the round's owner, so writing results back does
not change what a re-run computes. -/
theorem mkResults_results_irrelevant (round : Round) (r : Option RoundResults)
    (subs : List Submission) (guesses : List Guess) (votes : List Vote) :
    mkResults { round with results := r } subs guesses votes =
      mkResults round subs guesses votes := rfl

/-- C1 counterexample: two sequential finalize invocations on the same
round double the leaderboard deltas: the chameleon delta of player pb is
1 after one invocation but 2 after two, and the crowd delta 2 vs 4,
contradicting the claim that the deltas are equal. -/
theorem finalizeRound_twice_doubles_counterexample :
    finalizeRound (some exRound0) [exS1, exS2] [exGuessB] exVotes exRoomF =
      .ok (exRes, exRoundDone, exRoomF1) ∧
    finalizeRound (some exRoundDone) [exS1, exS2] [exGuessB] exVotes exRoomF1 =
      .ok (exRes, exRoundDone, exRoomF2) ∧
    alGet (lbc exRoomF) "pb" = 0 ∧ alGet (lbc exRoomF1) "pb" = 1 ∧
    alGet (lbc exRoomF2) "pb" = 2 ∧
    alGet (lbw exRoomF) "pb" = 0 ∧ alGet (lbw exRoomF1) "pb" = 2 ∧
    alGet (lbw exRoomF2) "pb" = 4 :=
  ⟨rfl, rfl, rfl, rfl, rfl, rfl, rfl, rfl⟩

/-- C1 (amended): finalizeRound is not idempotent: each invocation
re-adds the round's deltas to the leaderboards, so two sequential
invocations produce exactly twice a single invocation's chameleon and
crowd deltas (the recomputed results themselves are unchanged); callers
must guard against re-invocation. -/
theorem finalizeRound_twice_adds_deltas_twice (round : Round)
    (subs : List Submission) (guesses : List Guess) (votes : List Vote)
    (room : Room) :
    ∀ res rd₁ rm₁,
      finalizeRound (some round) subs guesses votes room = .ok (res, rd₁, rm₁) →
    ∀ res₂ rd₂ rm₂,
      finalizeRound (some rd₁) subs guesses votes rm₁ = .ok (res₂, rd₂, rm₂) →
      res₂ = res ∧
      (∀ p, alGet (lbc rm₁) p = alGet (lbc room) p + res.correctGuessers.count p ∧
        alGet (lbc rm₂) p = alGet (lbc room) p + 2 * res.correctGuessers.count p) ∧
      (∀ p, alGet (lbw rm₁) p = alGet (lbw room) p + crowdAward subs votes p ∧
        alGet (lbw rm₂) p = alGet (lbw room) p + 2 * crowdAward subs votes p) := by
  intro res rd₁ rm₁ h₁ res₂ rd₂ rm₂ h₂
  rw [finalizeRound_some_eq] at h₁ h₂
  simp only [Except.ok.injEq, Prod.mk.injEq] at h₁ h₂
  obtain ⟨hres, hrd₁, hrm₁⟩ := h₁
  obtain ⟨hres₂, hrd₂, hrm₂⟩ := h₂
  subst hres hrd₁ hrm₁ hres₂ hrd₂ hrm₂
  have hsame : mkResults { round with results := some (mkResults round subs guesses votes) }
      subs guesses votes = mkResults round subs guesses votes :=
    mkResults_results_irrelevant round _ subs guesses votes
  refine ⟨hsame, ?_, ?_⟩
  · intro p
    rw [hsame, lbc_mkRoomAfter, lbc_mkRoomAfter, lbc_mkRoomAfter,
      alGet_awardChameleon, alGet_awardChameleon, alGet_awardChameleon]
    omega
  · intro p
    rw [hsame, lbw_mkRoomAfter, lbw_mkRoomAfter, lbw_mkRoomAfter]
    have hvc : (mkResults round subs guesses votes).voteCounts = tallyVotes votes := rfl
    rw [hvc, alGet_awardCrowd_tally, alGet_awardCrowd_tally, alGet_awardCrowd_tally]
    omega

/-- C1 witness. -/
theorem finalizeRound_twice_adds_deltas_twice_witness :
    alGet (lbc exRoomF2) "pb" = alGet (lbc exRoomF) "pb" +
      2 * exRes.correctGuessers.count "pb" :=
  (((finalizeRound_twice_adds_deltas_twice exRound0 [exS1, exS2] [exGuessB] exVotes
      exRoomF exRes exRoundDone exRoomF1 rfl exRes exRoundDone exRoomF2 rfl).2.1) "pb").2

theorem mkResults_ownerAnswerId (round : Round) (subs : List Submission)
    (guesses : List Guess) (votes : List Vote) :
    (mkResults round subs guesses votes).ownerAnswerId =
      computeOwnerAnswerId subs round.owner_id := rfl

theorem mkResults_correctGuessers (round : Round) (subs : List Submission)
    (guesses : List Guess) (votes : List Vote) :
    (mkResults round subs guesses votes).correctGuessers =
      (guesses.filter
        (correctGuessPred (computeOwnerAnswerId subs round.owner_id))).map
          (·.player_id) := rfl

theorem mkResults_voteCounts (round : Round) (subs : List Submission)
    (guesses : List Guess) (votes : List Vote) :
    (mkResults round subs guesses votes).voteCounts = tallyVotes votes := rfl

/-- C3: a single finalizeRound invocation computes ownerAnswerId as the
first submission by the round's designated owner (none when the owner
never submitted), correctGuessers as exactly the players whose guess
equals that submission id, tallies votes per submission id, persists
these as the round's results, and updates the leaderboards by +1
chameleon per correct guesser and, for the crowd score, one point per
vote credited to the voted submission's author (+N for a submission
with N votes). -/
theorem finalizeRound_single_invocation_correct (round : Round)
    (subs : List Submission) (guesses : List Guess) (votes : List Vote)
    (room : Room) (hids : ∀ s ∈ subs, s.id ≠ "") :
    ∀ res rd' rm',
      finalizeRound (some round) subs guesses votes room = .ok (res, rd', rm') →
      res.ownerAnswerId =
        ((subs.filter (fun s => round.owner_id == some s.player_id)).head?).map
          (·.id) ∧
      (res.ownerAnswerId = none ↔ ∀ s ∈ subs, round.owner_id ≠ some s.player_id) ∧
      (∀ p, p ∈ res.correctGuessers ↔
        ∃ g ∈ guesses, g.player_id = p ∧ res.ownerAnswerId = some g.answer_id) ∧
      (∀ aid, alGet res.voteCounts aid = votes.countP (fun v => v.answer_id == aid)) ∧
      rd'.results = some res ∧
      (∀ p, alGet (lbc rm') p = alGet (lbc room) p + res.correctGuessers.count p) ∧
      (∀ p, alGet (lbw rm') p = alGet (lbw room) p + crowdAward subs votes p) := by
  intro res rd' rm' hok
  rw [finalizeRound_some_eq] at hok
  simp only [Except.ok.injEq, Prod.mk.injEq] at hok
  obtain ⟨hres, hrd, hrm⟩ := hok
  subst hres hrd hrm
  refine ⟨?_, ?_, ?_, ?_, rfl, ?_, ?_⟩
  · rw [mkResults_ownerAnswerId]
    unfold computeOwnerAnswerId
    rw [find?_eq_filter_head?]
  · rw [mkResults_ownerAnswerId]
    unfold computeOwnerAnswerId
    rw [Option.map_eq_none', List.find?_eq_none]
    constructor
    · intro h s hs
      simpa using h s hs
    · intro h s hs
      simpa using h s hs
  · intro p
    rw [mkResults_correctGuessers, mkResults_ownerAnswerId, List.mem_map]
    constructor
    · rintro ⟨g, hgmem, hgp⟩
      rw [List.mem_filter] at hgmem
      obtain ⟨hgin, hpred⟩ := hgmem
      cases hoa : computeOwnerAnswerId subs round.owner_id with
      | none =>
        rw [hoa] at hpred
        exact absurd hpred (by simp [correctGuessPred])
      | some a =>
        rw [hoa] at hpred
        simp only [correctGuessPred, Bool.and_eq_true, beq_iff_eq] at hpred
        exact ⟨g, hgin, hgp, by rw [hpred.2]⟩
    · rintro ⟨g, hgin, hgp, hoa⟩
      have hfind : ∃ s, subs.find?
          (fun s => round.owner_id == some s.player_id) = some s ∧
          s.id = g.answer_id := by
        unfold computeOwnerAnswerId at hoa
        cases hf : subs.find? (fun s => round.owner_id == some s.player_id) with
        | none =>
          rw [hf] at hoa
          simp at hoa
        | some s =>
          rw [hf] at hoa
          exact ⟨s, rfl, by simpa using hoa⟩
      obtain ⟨s, hf, hsid⟩ := hfind
      have hsmem : s ∈ subs := List.mem_of_find?_eq_some hf
      have hidne : s.id ≠ "" := hids s hsmem
      refine ⟨g, List.mem_filter.mpr ⟨hgin, ?_⟩, hgp⟩
      rw [hoa]
      simp only [correctGuessPred, Bool.and_eq_true, beq_self_eq_true, and_true]
      simp only [strTruthy, bne_iff_ne, ne_eq]
      exact hsid ▸ hidne
  · intro aid
    rw [mkResults_voteCounts]
    exact alGet_tallyVotes votes aid
  · intro p
    rw [lbc_mkRoomAfter, mkResults_correctGuessers, alGet_awardChameleon]
  · intro p
    rw [lbw_mkRoomAfter, mkResults_voteCounts, alGet_awardCrowd_tally]

/-- C3 witness. -/
theorem finalizeRound_single_invocation_correct_witness :
    alGet (lbc exRoomF1) "pb" =
      alGet (lbc exRoomF) "pb" + exRes.correctGuessers.count "pb" :=
  ((finalizeRound_single_invocation_correct exRound0 [exS1, exS2] [exGuessB]
      exVotes exRoomF (by decide) exRes exRoundDone exRoomF1 rfl).2.2.2.2.2.1) "pb"

end PartyGame
